import Mathlib

/-!
# Verification of the realtime-transcription streaming client

Shallow embedding of the audio-streaming / transcription client found in
this repository (the `useAssemblyAI` hooks, the inline audio-worklet
resamplers, and the turn aggregation in `App.tsx`), together with proofs
and refutations of the specified properties.

Conventions of the embedding:
* JS arrays of turns become `List AssemblyAITurn`; `Array.findIndex`
  becomes `findTurnIndex` (first index whose `turn_order` matches).
* Audio samples are modelled with exact rational arithmetic (`ℚ`) in
  place of JS floating point; sample counts and rates are `Nat`.
* The WebSocket handle `ws.current` becomes `Option WsReadyState`
  (`none` = the ref is `null`).
* Console logging and `alert` calls are diagnostics with no effect on
  program state and are not modelled.
-/

/-- ConnectionStatus from `types.ts`:
`'idle' | 'connecting' | 'connected' | 'closing' | 'closed' | 'error'`. -/
inductive ConnectionStatus
  | idle
  | connecting
  | connected
  | closing
  | closed
  | error
deriving DecidableEq, Repr

/-- The readyState of the browser WebSocket held in `ws.current`. -/
inductive WsReadyState
  | wsConnecting
  | wsOpen
  | wsClosing
  | wsClosed
deriving DecidableEq, Repr

/-- AssemblyAITurn from `types.ts` (the fields the client logic reads;
the `words` array is carried opaquely by the code and never inspected
by the aggregation logic, so it is omitted from the embedding). -/
structure AssemblyAITurn where
  turn_order : Nat
  turn_is_formatted : Bool
  end_of_turn : Bool
  transcript : String
deriving DecidableEq, Repr

/-- Embedding of `prevTurns.findIndex(t => t.turn_order === turn.turn_order)` from
`handleNewTurn` in `App.tsx`: index of the first element with the given
`turn_order`, `none` when absent (JS returns `-1`). -/
def findTurnIndex (ord : Nat) : List AssemblyAITurn → Option Nat
  | [] => none
  | t :: rest =>
      if t.turn_order = ord then some 0
      else (findTurnIndex ord rest).map (· + 1)

/-- The `setTurns` updater of `handleNewTurn` in `App.tsx`: if a turn
with the same `turn_order` exists, replace it in place at its first
index; otherwise append the new turn at the end. -/
def applyTurn (prevTurns : List AssemblyAITurn) (turn : AssemblyAITurn) :
    List AssemblyAITurn :=
  match findTurnIndex turn.turn_order prevTurns with
  | some i => prevTurns.set i turn
  | none => prevTurns ++ [turn]

/-- JS `String.prototype.trim`: strip whitespace from both ends.
(Defined structurally on the character list so it evaluates; Lean's
built-in `String.trim` is equivalent but defined by well-founded
recursion on byte positions.) -/
def jsTrim (s : String) : String :=
  ⟨(((s.data.dropWhile Char.isWhitespace).reverse.dropWhile Char.isWhitespace).reverse)⟩

/-- Function `getFullTranscript` from `App.tsx`: map each turn to its
`transcript`, join with a single space, and trim. -/
def getFullTranscript (currentTurns : List AssemblyAITurn) : String :=
  jsTrim (String.intercalate " " (currentTurns.map (·.transcript)))

/-- Modelled from the spec: §4.5 full-transcript derivation, which asks
for "all committed turns' `text` in `order` sequence" — i.e. the
transcript of the sequence sorted by `turn_order`.  The code
(`getFullTranscript`) does not sort; this definition exists only to be
compared with it.  Insertion sort by `turn_order`. -/
def insertByOrder (u : AssemblyAITurn) : List AssemblyAITurn → List AssemblyAITurn
  | [] => [u]
  | t :: rest =>
      if u.turn_order ≤ t.turn_order then u :: t :: rest
      else t :: insertByOrder u rest

/-- Modelled from the spec: sort the turn sequence by `turn_order`. -/
def sortByOrder (ts : List AssemblyAITurn) : List AssemblyAITurn :=
  ts.foldr insertByOrder []

/-- Modelled from the spec: the full transcript the spec describes —
turns' text concatenated sorted by `order` value. -/
def getFullTranscriptSpecSorted (ts : List AssemblyAITurn) : String :=
  getFullTranscript (sortByOrder ts)

/- ### Helper lemmas about `findTurnIndex` / `applyTurn` -/

theorem findTurnIndex_set_self {ord : Nat} {ts : List AssemblyAITurn} {j : Nat}
    (hfind : findTurnIndex ord ts = some j) (u : AssemblyAITurn)
    (hu : u.turn_order = ord) :
    findTurnIndex ord (ts.set j u) = some j := by
  induction ts generalizing j with
  | nil => simp [findTurnIndex] at hfind
  | cons t rest ih =>
    by_cases h : t.turn_order = ord
    · simp [findTurnIndex, h] at hfind
      subst hfind
      simp [List.set, findTurnIndex, hu]
    · simp [findTurnIndex, h] at hfind
      obtain ⟨j', hj', rfl⟩ := hfind
      simp [List.set, findTurnIndex, h, ih hj']

theorem findTurnIndex_append_absent {ord : Nat} {ts : List AssemblyAITurn}
    (hfind : findTurnIndex ord ts = none) (u : AssemblyAITurn)
    (hu : u.turn_order = ord) :
    findTurnIndex ord (ts ++ [u]) = some ts.length := by
  induction ts with
  | nil => simp [findTurnIndex, hu]
  | cons t rest ih =>
    by_cases h : t.turn_order = ord
    · simp [findTurnIndex, h] at hfind
    · simp [findTurnIndex, h] at hfind ⊢
      simp [ih hfind]

theorem set_append_singleton (ts : List AssemblyAITurn) (a b : AssemblyAITurn) :
    (ts ++ [a]).set ts.length b = ts ++ [b] := by
  induction ts with
  | nil => rfl
  | cons t rest ih => simp [List.set, ih]

theorem findTurnIndex_of_forall_ne {ord : Nat} {ts : List AssemblyAITurn}
    (h : ∀ t ∈ ts, t.turn_order ≠ ord) :
    findTurnIndex ord ts = none := by
  induction ts with
  | nil => rfl
  | cons t rest ih =>
    have ht : t.turn_order ≠ ord := h t (by simp)
    simp [findTurnIndex, ht, ih (fun x hx => h x (by simp [hx]))]

/- ### C2 — idempotent-by-order merge in `handleNewTurn` -/

/-- C2: applying two turn updates with the same `order` via the
aggregator leaves the sequence length unchanged, the later update's
fields win (the composite equals applying only the later update), and a
single update replaces in place at the existing first index of its
`order` when present and appends exactly one element otherwise. -/
theorem handleNewTurn_merge_by_order (ts : List AssemblyAITurn)
    (u1 u2 : AssemblyAITurn) (h : u1.turn_order = u2.turn_order) :
    (applyTurn (applyTurn ts u1) u2).length = (applyTurn ts u1).length
    ∧ applyTurn (applyTurn ts u1) u2 = applyTurn ts u2
    ∧ applyTurn ts u2 =
        (findTurnIndex u2.turn_order ts).elim (ts ++ [u2]) (fun j => ts.set j u2) := by
  have third : applyTurn ts u2 =
      (findTurnIndex u2.turn_order ts).elim (ts ++ [u2]) (fun j => ts.set j u2) := by
    cases hf : findTurnIndex u2.turn_order ts <;> simp [applyTurn, hf]
  cases hfind : findTurnIndex u1.turn_order ts with
  | some j =>
    have hfind2 : findTurnIndex u2.turn_order ts = some j := by rw [← h]; exact hfind
    have happ1 : applyTurn ts u1 = ts.set j u1 := by
      unfold applyTurn; rw [hfind]
    have hset : findTurnIndex u2.turn_order (ts.set j u1) = some j :=
      findTurnIndex_set_self hfind2 u1 h
    have happ2 : applyTurn (applyTurn ts u1) u2 = ts.set j u2 := by
      rw [happ1]
      unfold applyTurn
      rw [hset]
      exact List.set_set u1 u2 ts j
    have happ3 : applyTurn ts u2 = ts.set j u2 := by
      unfold applyTurn; rw [hfind2]
    refine ⟨?_, by rw [happ2, happ3], third⟩
    rw [happ2, happ1]
    simp
  | none =>
    have hfind2 : findTurnIndex u2.turn_order ts = none := by rw [← h]; exact hfind
    have happ1 : applyTurn ts u1 = ts ++ [u1] := by
      unfold applyTurn; rw [hfind]
    have hset : findTurnIndex u2.turn_order (ts ++ [u1]) = some ts.length :=
      findTurnIndex_append_absent hfind2 u1 h
    have happ2 : applyTurn (applyTurn ts u1) u2 = ts ++ [u2] := by
      rw [happ1]
      unfold applyTurn
      rw [hset]
      exact set_append_singleton ts u1 u2
    have happ3 : applyTurn ts u2 = ts ++ [u2] := by
      unfold applyTurn; rw [hfind2]
    refine ⟨?_, by rw [happ2, happ3], third⟩
    rw [happ2, happ1]
    simp

/-- The interim update for order 1 from the spec's replace scenario. -/
def tInterim : AssemblyAITurn := ⟨1, false, false, "hell"⟩

/-- The final update for order 1 from the spec's replace scenario. -/
def tFinal : AssemblyAITurn := ⟨1, true, true, "hello"⟩

/-- Witness for `handleNewTurn_merge_by_order` at the spec's
interim-then-final scenario for order 1. -/
theorem handleNewTurn_merge_by_order_witness :
    (applyTurn (applyTurn [] tInterim) tFinal).length = (applyTurn [] tInterim).length
    ∧ applyTurn (applyTurn [] tInterim) tFinal = applyTurn [] tFinal
    ∧ applyTurn [] tFinal =
        (findTurnIndex tFinal.turn_order []).elim ([] ++ [tFinal]) (fun j => List.set [] j tFinal) :=
  handleNewTurn_merge_by_order [] tInterim tFinal rfl

/- ### C4 — full transcript is in arrival order, not sorted by `order` -/

/-- A final turn with order 1 and text "a". -/
def turnOrd1 : AssemblyAITurn := ⟨1, true, true, "a"⟩

/-- A final turn with order 2 and text "b". -/
def turnOrd2 : AssemblyAITurn := ⟨2, true, true, "b"⟩

/-- C4 counterexample: when the update for order 2 arrives before the
one for order 1, `getFullTranscript` yields the arrival-order
concatenation "b a", not the order-sorted concatenation "a b" demanded
by the claim (`getFullTranscriptSpecSorted` shows what sorting would
give).  The code never sorts by `order`. -/
theorem getFullTranscript_not_sorted_cex :
    getFullTranscript (applyTurn (applyTurn [] turnOrd2) turnOrd1) = "b a"
    ∧ getFullTranscriptSpecSorted (applyTurn (applyTurn [] turnOrd2) turnOrd1) = "a b"
    ∧ ("b a" : String) ≠ "a b" := by
  refine ⟨by decide, by decide, by decide⟩

/-- C4 amended: for two turn updates with distinct `order` values
arriving out of numeric order into an empty sequence, the aggregator
appends in arrival order and the derived full transcript concatenates
the turns' text in arrival order (the stored sequence order), not
sorted by `order` value. -/
theorem getFullTranscript_arrival_order (a b : AssemblyAITurn)
    (h : b.turn_order ≠ a.turn_order) :
    applyTurn (applyTurn [] b) a = [b, a]
    ∧ getFullTranscript (applyTurn (applyTurn [] b) a)
        = jsTrim (String.intercalate " " [b.transcript, a.transcript]) := by
  have h2 : findTurnIndex a.turn_order [b] = none := by
    simp [findTurnIndex, h]
  have h3 : applyTurn [b] a = [b, a] := by
    unfold applyTurn; rw [h2]; rfl
  have h1 : applyTurn ([] : List AssemblyAITurn) b = [b] := rfl
  rw [h1, h3]
  exact ⟨rfl, rfl⟩

/-- Witness for `getFullTranscript_arrival_order` at order 2 before
order 1. -/
theorem getFullTranscript_arrival_order_witness :
    applyTurn (applyTurn [] turnOrd2) turnOrd1 = [turnOrd2, turnOrd1]
    ∧ getFullTranscript (applyTurn (applyTurn [] turnOrd2) turnOrd1)
        = jsTrim (String.intercalate " " [turnOrd2.transcript, turnOrd1.transcript]) :=
  getFullTranscript_arrival_order turnOrd1 turnOrd2 (by decide)

/- ### Frame Buffer & Pacer (`sendAudioBuffer`) -/

/-- Constant `MIN_SAMPLES` from `useAssemblyAI.v7.ts`: 800 samples = 50 ms at
16 kHz, the minimum the code will transmit. -/
def MIN_SAMPLES : Nat := 800

/-- Embedding of `audioBuffer.reduce((sum, b) => sum + b.length, 0)`: total queued
sample count. -/
def totalSampleCount (q : List (List Int)) : Nat := (q.map List.length).sum

/-- Function `sendAudioBuffer` from `useAssemblyAI.v7.ts` (lines 131-151).
The queue is a list of PCM frames (each a list of 16-bit sample
values).  Returns the transmitted message (if any) and the queue
afterwards.  The JS code returns early when the buffer is empty or
`ws.current?.readyState !== WebSocket.OPEN`, returns early when the
total sample count is below `MIN_SAMPLES`, and otherwise copies every
frame at its running offset into one concatenated buffer (= `flatten`),
sends it, and sets `audioBuffer.length = 0`. -/
def sendAudioBuffer (ws : Option WsReadyState) (audioBuffer : List (List Int)) :
    Option (List Int) × List (List Int) :=
  if audioBuffer.length = 0 ∨ ws ≠ some WsReadyState.wsOpen then (none, audioBuffer)
  else if totalSampleCount audioBuffer < MIN_SAMPLES then (none, audioBuffer)
  else (some audioBuffer.flatten, [])

/-- Function `sendAudioBuffer` from the earlier iteration `hooks/useAssemblyAI.ts`
(lines 108-121): identical but with no minimum-size threshold. -/
def sendAudioBufferLegacy (ws : Option WsReadyState) (audioBuffer : List (List Int)) :
    Option (List Int) × List (List Int) :=
  if audioBuffer.length = 0 ∨ ws ≠ some WsReadyState.wsOpen then (none, audioBuffer)
  else (some audioBuffer.flatten, [])

/- ### C3 — the 200 ms timer flush does NOT ignore the threshold -/

/-- C3 counterexample: the 200 ms interval in `useAssemblyAI.v7.ts`
calls `sendAudioBuffer`, which enforces the 800-sample minimum even
when the timer fires.  With the connection open and a non-empty queue
of one 1-sample frame (below the threshold), the flush transmits
nothing and leaves the queue unchanged — contradicting the claim that
the timer-triggered flush transmits and empties the queue regardless of
total sample count. -/
theorem timer_flush_below_threshold_cex :
    sendAudioBuffer (some WsReadyState.wsOpen) [[0]] = (none, [[0]])
    ∧ totalSampleCount [[0]] < MIN_SAMPLES
    ∧ ([[0]] : List (List Int)) ≠ [] := by decide

/-- C3 amended: for a non-empty queue with the connection open, the
timer-triggered flush of the latest iteration (`useAssemblyAI.v7.ts`)
transmits the concatenated frames and empties the queue only when the
total sample count has reached `MIN_SAMPLES`; below the threshold it
transmits nothing and leaves the queue unchanged.  The earlier
iteration's flush (`hooks/useAssemblyAI.ts`) has no threshold and
transmits any non-empty queue. -/
theorem timer_flush_behavior (q : List (List Int)) (hne : q ≠ []) :
    sendAudioBuffer (some WsReadyState.wsOpen) q
      = (if totalSampleCount q < MIN_SAMPLES then (none, q) else (some q.flatten, []))
    ∧ sendAudioBufferLegacy (some WsReadyState.wsOpen) q = (some q.flatten, []) := by
  have hlen : ¬ q.length = 0 := by simpa using hne
  constructor
  · by_cases hlt : totalSampleCount q < MIN_SAMPLES
    · simp [sendAudioBuffer, hlen, hlt]
    · simp [sendAudioBuffer, hlen, hlt]
  · simp [sendAudioBufferLegacy, hlen]

/-- Witness for `timer_flush_behavior` on a single 3-sample frame
(below the 800-sample threshold): the v7 flush keeps the queue, the
legacy flush transmits it. -/
theorem timer_flush_behavior_witness :
    sendAudioBuffer (some WsReadyState.wsOpen) [[1, 2, 3]]
      = (if totalSampleCount [[1, 2, 3]] < MIN_SAMPLES
         then (none, [[1, 2, 3]]) else (some ([[1, 2, 3]] : List (List Int)).flatten, []))
    ∧ sendAudioBufferLegacy (some WsReadyState.wsOpen) [[1, 2, 3]]
        = (some ([[1, 2, 3]] : List (List Int)).flatten, []) :=
  timer_flush_behavior [[1, 2, 3]] (by decide)

/- ### C8 — a successful send drains the whole queue exactly once -/

/-- C8: whenever either pacer variant's flush actually transmits, the
transmitted message is exactly the concatenation (`flatten`) of all queued
frames — each frame appears exactly once, in order — and the queue is
empty immediately afterwards. -/
theorem sendAudioBuffer_drains (ws : Option WsReadyState) (q : List (List Int))
    (msg : List Int) (rest : List (List Int))
    (h : sendAudioBuffer ws q = (some msg, rest)
      ∨ sendAudioBufferLegacy ws q = (some msg, rest)) :
    msg = q.flatten ∧ rest = [] := by
  rcases h with h | h
  · unfold sendAudioBuffer at h
    split at h
    · simp at h
    · split at h
      · simp at h
      · simp only [Prod.mk.injEq, Option.some.injEq] at h
        exact ⟨h.1.symm, h.2.symm⟩
  · unfold sendAudioBufferLegacy at h
    split at h
    · simp at h
    · simp only [Prod.mk.injEq, Option.some.injEq] at h
      exact ⟨h.1.symm, h.2.symm⟩

/-- Witness for `sendAudioBuffer_drains`: a successful legacy send of
two queued frames. -/
theorem sendAudioBuffer_drains_witness :
    ([1, 2, 3] : List Int) = ([[1], [2, 3]] : List (List Int)).flatten
    ∧ ([] : List (List Int)) = [] :=
  sendAudioBuffer_drains (some WsReadyState.wsOpen) [[1], [2, 3]] [1, 2, 3] []
    (Or.inr (by decide))

/- ### Streaming Protocol Client lifecycle -/

/-- The client's lifecycle-relevant state: the React `status` value and
the `ws.current` ref's readyState (`none` = the ref is `null`). -/
structure ClientState where
  status : ConnectionStatus
  ws : Option WsReadyState
deriving DecidableEq, Repr

/-- External actions the session-start path of `startListening` can
perform: the token request, microphone acquisition and WebSocket
construction.  `alert` and console logging are diagnostics and are not
tracked. -/
inductive StartAction
  | requestToken
  | acquireMic
  | openTransport
deriving DecidableEq, Repr

/-- Function `startListening` from `useAssemblyAI.v7.ts` (lines 118-125 plus the
success path of the body): with an empty API key (`!apiKey` is true),
alert and return — no state change, no external action; if the status
is `connected` or `connecting`, return; otherwise set the status to
`connecting` and proceed to request a token, acquire the microphone
and construct the WebSocket. -/
def startListening (apiKey : String) (s : ClientState) :
    ClientState × List StartAction :=
  if apiKey = "" then (s, [])
  else if s.status = .connected ∨ s.status = .connecting then (s, [])
  else ({ s with status := .connecting },
        [.requestToken, .acquireMic, .openTransport])

/-- Function `stopListening` from `useAssemblyAI.v7.ts` (lines 253-287): return
when the status is `idle`, `closed` or `closing`; if the socket is
open, send the `Terminate` control message and set `closing` (the
close handler or the 1 s fallback completes the shutdown); otherwise
clean up immediately (socket closed and nulled) and set `closed`. -/
def stopListening (s : ClientState) : ClientState :=
  if s.status = .idle ∨ s.status = .closed ∨ s.status = .closing then s
  else if s.ws = some .wsOpen then { s with status := .closing }
  else { status := .closed, ws := none }

/-- Handler `handleClose` from `useAssemblyAI.v7.ts` (lines 106-110):
`cleanupResources(true)` (audio resources released; the socket ref is
kept but the socket itself is now closed) and `setStatus('closed')` —
unconditionally, whatever the current status. -/
def handleClose (s : ClientState) : ClientState :=
  { status := .closed, ws := (s.ws).map (fun _ => .wsClosed) }

/-- Handler `handleError` from `useAssemblyAI.v7.ts` (lines 112-116):
`setStatus('error')` then `cleanupResources()` (socket closed and
nulled). -/
def handleError (_ : ClientState) : ClientState :=
  { status := .error, ws := none }

/-- Triggers of the client state machine: the user's start/stop calls,
successful WebSocket construction, and the socket callbacks wired in
`startListening`. -/
inductive Event
  | evStart (apiKey : String)
  | evWsCreated
  | evOpen
  | evError
  | evClose
  | evStop
deriving DecidableEq, Repr

/-- One step of the client state machine, dispatching each trigger to
the code's handler.  Socket callbacks can only fire while the ref holds
a socket. -/
def stepClient (e : Event) (s : ClientState) : ClientState :=
  match e with
  | .evStart key => (startListening key s).1
  | .evWsCreated =>
      if s.status = .connecting then { s with ws := some .wsConnecting } else s
  | .evOpen => if s.ws = none then s else { status := .connected, ws := some .wsOpen }
  | .evError => if s.ws = none then s else handleError s
  | .evClose => if s.ws = none then s else handleClose s
  | .evStop => stopListening s

/-- The sequence of states visited while running a list of events from
a start state (start state included). -/
def runTrace (s : ClientState) : List Event → List ClientState
  | [] => [s]
  | e :: es => s :: runTrace (stepClient e s) es

/-- The client's initial state: status `idle`, no socket
(`useState('idle')`, `useRef(null)`). -/
def initialClient : ClientState := ⟨.idle, none⟩

/- ### C1 — `connecting` CAN jump directly to `closed` -/

/-- C1 counterexample: a reachable two-event execution — the user
starts a session and presses stop while the connection is still being
established (socket not yet open).  `stopListening` falls into its
else-branch, cleans up and sets `closed`: the state goes directly from
`connecting` to `closed`; the trace visits neither `connected` nor
`error`. -/
theorem connecting_to_closed_direct_cex :
    runTrace initialClient [Event.evStart "key", Event.evStop]
      = [⟨.idle, none⟩, ⟨.connecting, none⟩, ⟨.closed, none⟩] := by decide

/-- C1 amended: the transition `connecting → closed` exists without
passing through `connected` or `error`: from any `connecting` state
whose socket exists but is not open, `stopListening` moves directly to
`closed`, and the socket close event (`handleClose`) likewise moves it
directly to `closed`. -/
theorem connecting_to_closed_direct (s : ClientState)
    (hc : s.status = .connecting) (hw1 : s.ws ≠ some .wsOpen)
    (hw2 : s.ws ≠ none) :
    stepClient .evStop s = ⟨.closed, none⟩
    ∧ stepClient .evClose s = ⟨.closed, (s.ws).map (fun _ => .wsClosed)⟩ := by
  constructor
  · simp [stepClient, stopListening, hc, hw1]
  · simp [stepClient, handleClose, hw2]

/-- Witness for `connecting_to_closed_direct`: the `connecting` state
with a socket mid-handshake. -/
theorem connecting_to_closed_direct_witness :
    stepClient .evStop ⟨.connecting, some .wsConnecting⟩ = ⟨.closed, none⟩
    ∧ stepClient .evClose ⟨.connecting, some .wsConnecting⟩
        = ⟨.closed, ((⟨.connecting, some .wsConnecting⟩ : ClientState).ws).map
            (fun _ => .wsClosed)⟩ :=
  connecting_to_closed_direct ⟨.connecting, some .wsConnecting⟩ rfl
    (by decide) (by decide)

/- ### C5 — startListening's actual guard -/

/-- C5 counterexample: `startListening` only guards against `connected`
and `connecting`.  Invoked in the `closing` state with an API key set,
it is not a no-op: it transitions to `connecting` and issues the
token / microphone / transport actions. -/
theorem startListening_closing_not_noop_cex :
    startListening "key" ⟨.closing, none⟩
      = (⟨.connecting, none⟩, [.requestToken, .acquireMic, .openTransport])
    ∧ ConnectionStatus.closing ≠ .connecting := by decide

/-- C5 amended: with a non-empty API key, `startListening` is a no-op
exactly in the `connected` and `connecting` states; from every other
state — `idle` and `closed`, but also `closing` and `error` — it
transitions to `connecting` and starts a session. -/
theorem startListening_guard (key : String) (s : ClientState) (hk : key ≠ "") :
    startListening key s =
      if s.status = .connected ∨ s.status = .connecting then (s, [])
      else ({ s with status := .connecting },
            [.requestToken, .acquireMic, .openTransport]) := by
  simp [startListening, hk]

/-- Witness for `startListening_guard` at the idle initial state. -/
theorem startListening_guard_witness :
    startListening "key" initialClient =
      if initialClient.status = .connected ∨ initialClient.status = .connecting
      then (initialClient, [])
      else ({ initialClient with status := .connecting },
            [.requestToken, .acquireMic, .openTransport]) :=
  startListening_guard "key" initialClient (by decide)

/- ### C10 — empty API key: immediate return, nothing happens -/

/-- C10: `startListening` invoked with an empty API key string returns
immediately in every state: the connection state is unchanged and no
token request, microphone acquisition or transport construction is
performed. -/
theorem startListening_empty_key (s : ClientState) :
    startListening "" s = (s, []) := by
  simp [startListening]

/- ### C9 — malformed inbound messages are logged and dropped -/

/-- Inbound protocol messages after JSON parsing (`AssemblyAIMessage`
in `types.ts`, plus unrecognized kinds, which the handler ignores for
forward compatibility). -/
inductive AAMessage
  | turnMsg (t : AssemblyAITurn)
  | sessionBegin (id : String)
  | sessionTermination
  | otherMsg (kind : String)
deriving DecidableEq, Repr

/-- The client state observed by the UI: the connection status, the
turn sequence and the interim transcript (`App.tsx` state). -/
structure AppState where
  status : ConnectionStatus
  turns : List AssemblyAITurn
  interim : String
deriving DecidableEq, Repr

/-- Function `handleNewTurn` from `App.tsx` (lines 28-44): merge the turn into
the sequence by `order` and set the interim transcript when the turn is
neither formatted nor end-of-turn, clearing it otherwise. -/
def handleNewTurn (s : AppState) (turn : AssemblyAITurn) : AppState :=
  { s with
    turns := applyTurn s.turns turn,
    interim :=
      if turn.turn_is_formatted = false ∧ turn.end_of_turn = false
      then turn.transcript else "" }

/-- Handler `handleMessage` from `useAssemblyAI.v7.ts` (lines 63-78).  The
argument is the result of `JSON.parse` on the payload: `none` models a
payload that fails JSON parsing, in which case the `catch` block logs
the error and returns — the embedding is a total function, mirroring
that no exception escapes the handler into caller code.  `Turn`
messages are dispatched to `onTurn` (= `handleNewTurn` in `App.tsx`);
`Begin` and `Termination` are only logged; unrecognized kinds are
ignored. -/
def handleMessage (s : AppState) (parsed : Option AAMessage) : AppState :=
  match parsed with
  | none => s
  | some (.turnMsg t) => handleNewTurn s t
  | some (.sessionBegin _) => s
  | some .sessionTermination => s
  | some (.otherMsg _) => s

/-- C9: a malformed inbound message is dropped: the handler returns the
state unchanged (connection status, turn sequence and interim
transcript included), and a stream of inbound messages behaves exactly
like the same stream with the malformed ones removed — processing of
subsequent messages continues. -/
theorem handleMessage_malformed_dropped :
    (∀ s : AppState, handleMessage s none = s)
    ∧ ∀ (s : AppState) (msgs : List (Option AAMessage)),
        msgs.foldl handleMessage s
          = (msgs.filter (fun m => m.isSome)).foldl handleMessage s := by
  refine ⟨fun s => rfl, fun s msgs => ?_⟩
  induction msgs generalizing s with
  | nil => rfl
  | cons m rest ih =>
    cases m with
    | none => simpa [List.filter] using ih s
    | some v => simpa [List.filter] using ih (handleMessage s (some v))

/- ### Resampler / Encoder -/

/-- A list equals the range-map of its own `getD` lookups. -/
theorem map_range_getD {α : Type} (d : α) (l : List α) :
    (List.range l.length).map (fun i => l.getD i d) = l := by
  induction l with
  | nil => rfl
  | cons a tl ih =>
    rw [List.length_cons, List.range_succ_eq_map, List.map_cons, List.map_map]
    simp only [List.getD_cons_zero]
    have hfun : ((fun i => (a :: tl).getD i d) ∘ Nat.succ) = fun i => tl.getD i d := by
      funext i
      simp [List.getD_cons_succ]
    rw [hfun, ih]

/-- The resampling loop of `RecorderProcessor.process` in the inline
worklet of `useAssemblyAI.v7.ts` (lines 21-49): with
`downsampleRatio = sourceRate/targetRate`, the output length is
`floor(inputLength / downsampleRatio)` and each output sample is the
input sample at index `floor(i * downsampleRatio)` — nearest lower
neighbour, no interpolation.  Samples are exact rationals in place of
JS floats; the real-division floors become `Nat` division. -/
def resampleV7 (sourceRate targetRate : Nat) (input : List ℚ) : List ℚ :=
  (List.range (input.length * targetRate / sourceRate)).map
    (fun i => input.getD (i * sourceRate / targetRate) 0)

/-- One output sample of `RecorderProcessor.resample` in
`audioWorkletProcessor.v2.ts` (lines 18-33): with
`ratio = targetRate/sourceRate`, the fractional source index is
`i / ratio`, `index0` its floor, `index1` the next index clamped to the
last input index, and the sample is the linear interpolation
`(1 - frac) * input[index0] + frac * input[index1]`. -/
def linearSample (input : List ℚ) (sourceRate targetRate i : Nat) : ℚ :=
  let index : ℚ := (i : ℚ) * sourceRate / targetRate
  let index0 : Nat := i * sourceRate / targetRate
  let index1 : Nat := min (index0 + 1) (input.length - 1)
  let frac : ℚ := index - (index0 : ℚ)
  (1 - frac) * input.getD index0 0 + frac * input.getD index1 0

/-- Function `RecorderProcessor.resample` from `audioWorkletProcessor.v2.ts`:
output length `floor(inputLength * ratio)`, each output sample linearly
interpolated. -/
def resampleV2 (sourceRate targetRate : Nat) (input : List ℚ) : List ℚ :=
  (List.range (input.length * targetRate / sourceRate)).map
    (linearSample input sourceRate targetRate)

/- ### C7 — the v7 resampler does not interpolate -/

/-- C7 counterexample: at source rate 24000 Hz and target rate
16000 Hz on the block `[0, 0, 1]`, output index 1 has fractional
source index 1.5; linear interpolation of the two bracketing samples
gives 1/2 (as `audioWorkletProcessor.v2`'s resampler computes), but
the v7 inline worklet outputs the nearest lower sample, 0 — the v7
Resampler/Encoder does not linearly interpolate. -/
theorem resampleV7_not_interpolating_cex :
    resampleV7 24000 16000 [0, 0, 1] = [0, 0]
    ∧ linearSample [0, 0, 1] 24000 16000 1 = 1/2
    ∧ resampleV2 24000 16000 [0, 0, 1] = [0, 1/2]
    ∧ ((0 : ℚ) ≠ 1/2) := by
  refine ⟨?_, ?_, ?_, by norm_num⟩
  · norm_num [resampleV7, List.range_succ]
  · norm_num [linearSample]
  · norm_num [resampleV2, linearSample, List.range_succ]

/-- C7 amended: for positive source rate `s` and target rate `t`, both
resampler variants produce `floor(inputLength * t / s)` output
samples, and equal rates reproduce the input exactly (so output length
equals input length); the `audioWorkletProcessor.v2` resampler
computes every output sample by linear interpolation at fractional
source index `i * s / t` (`linearSample`), while the v7 inline worklet
instead emits the nearest lower input sample. -/
theorem resample_length_and_identity (s t : Nat) (input : List ℚ)
    (hs : 0 < s) (ht : 0 < t) :
    (resampleV7 s t input).length = input.length * t / s
    ∧ (resampleV2 s t input).length = input.length * t / s
    ∧ resampleV2 s t input
        = (List.range (input.length * t / s)).map (linearSample input s t)
    ∧ (s = t → resampleV7 s t input = input ∧ resampleV2 s t input = input) := by
  refine ⟨by simp [resampleV7], by simp [resampleV2], rfl, ?_⟩
  rintro rfl
  have hsq : ((s : ℚ)) ≠ 0 := by
    exact_mod_cast hs.ne'
  constructor
  · unfold resampleV7
    rw [Nat.mul_div_cancel _ hs]
    have hfun : (fun i => input.getD (i * s / s) 0) = fun i => input.getD i 0 := by
      funext i
      rw [Nat.mul_div_cancel _ hs]
    rw [hfun, map_range_getD]
  · unfold resampleV2
    rw [Nat.mul_div_cancel _ hs]
    have hfun : linearSample input s s = fun i => input.getD i 0 := by
      funext i
      unfold linearSample
      have h0 : i * s / s = i := Nat.mul_div_cancel _ hs
      have hq : ((i : ℚ) * (s : ℚ) / (s : ℚ)) = (i : ℚ) := by
        rw [mul_div_assoc, div_self hsq, mul_one]
      simp only [h0, hq]
      simp
    rw [hfun, map_range_getD]

/-- Witness for `resample_length_and_identity` at equal rates
(16 kHz to 16 kHz) on a one-sample block. -/
theorem resample_length_and_identity_witness :
    (resampleV7 16000 16000 [1/2]).length = ([1/2] : List ℚ).length * 16000 / 16000
    ∧ (resampleV2 16000 16000 [1/2]).length = ([1/2] : List ℚ).length * 16000 / 16000
    ∧ resampleV2 16000 16000 [1/2]
        = (List.range (([1/2] : List ℚ).length * 16000 / 16000)).map
            (linearSample [1/2] 16000 16000)
    ∧ (16000 = 16000 →
        resampleV7 16000 16000 [1/2] = [1/2] ∧ resampleV2 16000 16000 [1/2] = [1/2]) :=
  resample_length_and_identity 16000 16000 [1/2] (by decide) (by decide)

/- ### C6 — flush gates on the socket, not on the ConnectionState -/

/-- Flush as the repository's client actually invokes it, seen against
the full client state: the `sendAudioBuffer` closure reads only
`ws.current` — the `status` state variable is never consulted — so the
gate is the transport's readyState, not the ConnectionState value. -/
def flushInState (s : ClientState) (q : List (List Int)) :
    Option (List Int) × List (List Int) :=
  sendAudioBuffer s.ws q

/-- C6 counterexample: the claim's no-op must hold in every connection
state other than `connected`, but in the reachable `closing` state the
socket is still open (the ref is closed only by `handleClose` or the
1 s fallback, and the 200 ms interval is cleared only in
`cleanupResources`), so a queue holding 800 samples IS transmitted and
cleared by the flush although the ConnectionState is `closing`, not
`connected`.  The trace start → socket created → open → stop reaches
that state from idle. -/
theorem flush_closing_transmits_cex :
    runTrace initialClient [Event.evStart "key", Event.evWsCreated, Event.evOpen, Event.evStop]
      = [⟨.idle, none⟩, ⟨.connecting, none⟩, ⟨.connecting, some .wsConnecting⟩,
         ⟨.connected, some .wsOpen⟩, ⟨.closing, some .wsOpen⟩]
    ∧ flushInState ⟨.closing, some .wsOpen⟩ [List.replicate 800 (0 : Int)]
        = (some (List.replicate 800 (0 : Int)), [])
    ∧ ConnectionStatus.closing ≠ .connected := by
  refine ⟨by decide, ?_, by decide⟩
  have h800 : totalSampleCount [List.replicate 800 (0 : Int)] = 800 := by
    unfold totalSampleCount
    rw [List.map_cons, List.map_nil, List.length_replicate, List.sum_cons,
        List.sum_nil, Nat.add_zero]
  show sendAudioBuffer (some WsReadyState.wsOpen) [List.replicate 800 (0 : Int)]
      = (some (List.replicate 800 (0 : Int)), [])
  unfold sendAudioBuffer
  split
  · rename_i hcond
    rcases hcond with h0 | hw
    · exact absurd h0 (by rw [List.length_cons, List.length_nil]; exact Nat.succ_ne_zero 0)
    · exact absurd rfl hw
  · split
    · rename_i hlt
      rw [h800] at hlt
      exact absurd hlt (Nat.lt_irrefl 800)
    · rw [List.flatten_cons, List.flatten_nil, List.append_nil]

/-- C6 amended: the flush's no-op gate is the transport's readyState,
not the ConnectionState value: for every status value, every queue and
every socket state other than open — and likewise whenever the queue
is empty — `flush()` transmits nothing and leaves the pending queue
exactly as it was, without raising an error (the embedding is a total
function, mirroring that the JS code returns normally on this path).
The socket is not open in `idle`, in `closed`/`error` after cleanup,
and while `connecting`; it IS still open in `closing`, the state the
original claim wrongly covered. -/
theorem flushInState_noop (st : ConnectionStatus) (w : Option WsReadyState)
    (q : List (List Int)) (h : w ≠ some WsReadyState.wsOpen ∨ q = []) :
    flushInState ⟨st, w⟩ q = (none, q) := by
  rcases h with h | rfl
  · simp [flushInState, sendAudioBuffer, h]
  · simp [flushInState, sendAudioBuffer]

/-- Witness for `flushInState_noop`: the `error` state after cleanup
(`ws.current = null`) with a queued frame. -/
theorem flushInState_noop_witness :
    flushInState ⟨.error, none⟩ [[5, 6]] = (none, [[5, 6]]) :=
  flushInState_noop .error none [[5, 6]] (Or.inl (by decide))
